import Mathlib

/-!
Verification development for the OpenStructure format-codec core:
the SDF (connection-table) codec policy and the crystallographic
preparation pipeline (`scoring_base.py`).

Part 1 embeds the connection-table codec.  The codec itself is C++ code
whose behavior is documented by the spec and exercised by
`src/modules/io/tests/test_io_sdf.py`; the definitions in this part are
therefore modelled from the spec at the level of decoded record fields
(atom lines with a legacy charge code, bond lines with an order code, an
optional `M  CHG` override block), not raw fixed-width text.

Part 2 embeds `src/modules/mol/alg/pymod/scoring_base.py` directly:
`CleanHydrogens`, `MMCIFPrep` and `PDBPrep`, with their external
collaborators (`io.LoadMMCIF`, `mol.alg.CreateBU`, the rule-based
processor, the compound library) taken as parameters.
-/

namespace SdfCodec

/-- Severity of an emitted diagnostic message. -/
inductive Severity where
  | error
  | warning
  | info
deriving DecidableEq, Repr

/-- A diagnostic emitted while reading or writing. -/
structure Diag where
  severity : Severity
  msg : String
deriving DecidableEq, Repr

/-- An atom of the canonical molecular graph: element symbol and formal
integer charge. -/
structure SdfAtom where
  element : String
  charge : Int
deriving DecidableEq, Repr

/-- A bond of the canonical molecular graph: the two atom indices and the
integer bond-order code (single=1, double=2, triple=3, aromatic=4,
dative=9). -/
structure SdfBond where
  first : Nat
  second : Nat
  order : Nat
deriving DecidableEq, Repr

/-- One molecule record of the canonical graph (one record = one chain). -/
structure SdfMol where
  atoms : List SdfAtom
  bonds : List SdfBond
deriving DecidableEq, Repr

/-- Set the formal charge of atom `i` of molecule `m` to `c`
(models `ent.FindAtom(...).charge = c`). -/
def setCharge (m : SdfMol) (i : Nat) (c : Int) : SdfMol :=
  { m with atoms := m.atoms.set i { (m.atoms.getD i ⟨"", 0⟩) with charge := c } }

/-- Errors of the codec. -/
inductive SdfError where
  /-- write-time charge out of the representable range [-3, 3] -/
  | rangeError (atomIdx : Nat) (charge : Int)
  /-- unrecognized legacy per-atom charge code -/
  | badChargeCode (atomIdx : Nat) (code : Nat)
  /-- unrecognized / rejected bond order code, identifying the bond -/
  | badBondOrder (b : SdfBond)
  /-- unknown profile name -/
  | unknownProfile (name : String)
deriving DecidableEq, Repr

/-- An atom line of a V2000 record: element plus the legacy 3-character
charge-code field. -/
structure V2000Atom where
  element : String
  chargeCode : Nat
deriving DecidableEq, Repr

/-- Modelled from the spec: a decoded V2000 connection-table record.
The real on-disk form is fixed-width text; the spec specifies its
semantics per field, which is what is modelled here: atom lines with a
legacy charge code, bond lines with an order code, and an optional
`M  CHG` override block listing 1-based atom-index/charge pairs. -/
structure V2000Record where
  atoms : List V2000Atom
  bonds : List SdfBond
  mchg : Option (List (Nat × Int))
deriving DecidableEq, Repr

/-- Modelled from the spec: a decoded V3000 (extended-dialect) record,
which stores signed charges and bond orders directly. -/
structure V3000Record where
  atoms : List SdfAtom
  bonds : List SdfBond
deriving DecidableEq, Repr

/-- Modelled from the spec: the fixed legacy charge-code table
(0→0, 1→+3, 2→+2, 3→+1, 4→radical (charge 0), 5→-1, 6→-2, 7→-3);
unrecognized codes are a format error. -/
def decodeChargeCode (code : Nat) : Option Int :=
  match code with
  | 0 => some 0
  | 1 => some 3
  | 2 => some 2
  | 3 => some 1
  | 4 => some 0
  | 5 => some (-1)
  | 6 => some (-2)
  | 7 => some (-3)
  | _ => none

/-- Modelled from the spec: inverse of the legacy charge-code table for
charges in [-3, 3]; any other charge is unrepresentable (write-time
range error, never clamped). -/
def encodeCharge (c : Int) : Option Nat :=
  if c = 0 then some 0
  else if c = 3 then some 1
  else if c = 2 then some 2
  else if c = 1 then some 3
  else if c = -1 then some 5
  else if c = -2 then some 6
  else if c = -3 then some 7
  else none

/-- Decode the atom block of a V2000 record when no `M  CHG` block is
present: each legacy charge code maps through the fixed table. `i` is the
index of the first atom of `l` in the record. -/
def decodeAtomsLegacy (i : Nat) : List V2000Atom → Except SdfError (List SdfAtom)
  | [] => .ok []
  | a :: rest =>
    match decodeChargeCode a.chargeCode with
    | none => .error (.badChargeCode i a.chargeCode)
    | some c =>
      match decodeAtomsLegacy (i + 1) rest with
      | .error e => .error e
      | .ok l => .ok (⟨a.element, c⟩ :: l)

/-- Decode the atom block when an `M  CHG` block is present: the block is
authoritative, every legacy charge code is ignored, atoms listed in the
block (by 1-based index) get the listed charge and all others get 0.
`i` is the 1-based index of the first atom of `l`. -/
def decodeAtomsMChg (chg : List (Nat × Int)) (i : Nat) :
    List V2000Atom → List SdfAtom
  | [] => []
  | a :: rest =>
    ⟨a.element, ((chg.lookup i).getD 0)⟩ :: decodeAtomsMChg chg (i + 1) rest

/-- Decode the atom block of a V2000 record. -/
def decodeAtoms (rec : V2000Record) : Except SdfError (List SdfAtom) :=
  match rec.mchg with
  | some chg => .ok (decodeAtomsMChg chg 1 rec.atoms)
  | none => decodeAtomsLegacy 0 rec.atoms

/-- The error-severity diagnostic emitted when a dative bond is accepted
in fault-tolerant mode. -/
def dativeDiag (b : SdfBond) : Diag :=
  ⟨.error, "dative bond (order 9) between atoms " ++ toString b.first ++ " and " ++
    toString b.second⟩

/-- Decode the bond block: order codes 1–4 (4 = aromatic) are accepted
unconditionally; code 9 (dative) is accepted only in fault-tolerant mode,
with an error-severity diagnostic; every other code is a format error
identifying the offending bond. -/
def decodeBonds (ft : Bool) : List SdfBond → Except SdfError (List SdfBond × List Diag)
  | [] => .ok ([], [])
  | b :: rest =>
    if b.order = 1 ∨ b.order = 2 ∨ b.order = 3 ∨ b.order = 4 then
      match decodeBonds ft rest with
      | .error e => .error e
      | .ok (l, d) => .ok (b :: l, d)
    else if b.order = 9 then
      if ft then
        match decodeBonds ft rest with
        | .error e => .error e
        | .ok (l, d) => .ok (b :: l, dativeDiag b :: d)
      else .error (.badBondOrder b)
    else .error (.badBondOrder b)

/-- Read one V2000 record into the canonical graph, under fault-tolerance
policy `ft`. -/
def readV2000 (ft : Bool) (rec : V2000Record) :
    Except SdfError (SdfMol × List Diag) :=
  match decodeAtoms rec with
  | .error e => .error e
  | .ok atoms =>
    match decodeBonds ft rec.bonds with
    | .error e => .error e
    | .ok (bonds, d) => .ok (⟨atoms, bonds⟩, d)

/-- Encode the atom block for the legacy dialect: each charge must be in
[-3, 3]; anything else is a write-time range error, never clamped, and
the fault-tolerance policy offers no bypass (the writer consults no
profile). `i` is the index of the first atom of `l`. -/
def encodeAtoms (i : Nat) : List SdfAtom → Except SdfError (List V2000Atom)
  | [] => .ok []
  | a :: rest =>
    match encodeCharge a.charge with
    | none => .error (.rangeError i a.charge)
    | some code =>
      match encodeAtoms (i + 1) rest with
      | .error e => .error e
      | .ok l => .ok (⟨a.element, code⟩ :: l)

/-- Downgrade applied by the legacy writer to a single bond: order 9
cannot be represented and becomes order 1 (single bond). -/
def downgradeDative (b : SdfBond) : SdfBond :=
  if b.order = 9 then { b with order := 1 } else b

/-- The warning-severity diagnostic identifying a lossy dative-bond
conversion. -/
def lossyDativeDiag (b : SdfBond) : Diag :=
  ⟨.warning, "dative bond between atoms " ++ toString b.first ++ " and " ++
    toString b.second ++ " written as single bond"⟩

/-- Warnings emitted by the legacy writer: one per order-9 bond. -/
def dativeWarnings (bonds : List SdfBond) : List Diag :=
  (bonds.filter (fun b => b.order = 9)).map lossyDativeDiag

/-- Write the canonical graph to a legacy (V2000) record: charges are
range-checked, order-9 bonds are downgraded to single bonds with a
warning-severity diagnostic. No `M  CHG` block is produced. -/
def writeV2000 (m : SdfMol) : Except SdfError (V2000Record × List Diag) :=
  match encodeAtoms 0 m.atoms with
  | .error e => .error e
  | .ok atoms => .ok (⟨atoms, m.bonds.map downgradeDative, none⟩, dativeWarnings m.bonds)

/-- Write the canonical graph to an extended (V3000) record: charges are
range-checked the same way; bond orders, including 9, are preserved
exactly. -/
def writeV3000 (m : SdfMol) : Except SdfError V3000Record :=
  match encodeAtoms 0 m.atoms with
  | .error e => .error e
  | .ok _ => .ok ⟨m.atoms, m.bonds⟩

/-- Read an extended (V3000) record: charges and bond orders (including
order 9, the vendor extension the dialect supports) are taken directly. -/
def readV3000 (rec : V3000Record) : Except SdfError (SdfMol × List Diag) :=
  .ok (⟨rec.atoms, rec.bonds⟩, [])

/-- A named format profile; the only flag relevant here. -/
structure IOProfile where
  fault_tolerant : Bool
deriving DecidableEq, Repr

/-- The profile registry: a named-configuration store with a mutable
`DEFAULT` entry. -/
def ProfileRegistry := List (String × IOProfile)

/-- Look a profile up by name. -/
def getProfile (reg : ProfileRegistry) (name : String) : Option IOProfile :=
  reg.lookup name

/-- Overwrite (or insert) a named entry. -/
def setProfile (reg : ProfileRegistry) (name : String) (p : IOProfile) :
    ProfileRegistry :=
  (name, p) :: (reg.filter (fun e => e.1 ≠ name))

/-- The registry at process start: `DEFAULT` is strict, `SLOPPY` is
fault-tolerant. -/
def initRegistry : ProfileRegistry :=
  [("DEFAULT", ⟨false⟩), ("SLOPPY", ⟨true⟩)]

/-- Resolve the effective fault-tolerant flag: an explicit boolean wins,
else an explicitly named profile, else the registry's `DEFAULT` entry. -/
def resolveFaultTolerant (reg : ProfileRegistry) (flag : Option Bool)
    (profName : Option String) : Except SdfError Bool :=
  match flag with
  | some b => .ok b
  | none =>
    let name := profName.getD "DEFAULT"
    match getProfile reg name with
    | some p => .ok p.fault_tolerant
    | none => .error (.unknownProfile name)

/-- The user-facing SDF load of one record (`io.LoadSDF`): resolve the
fault-tolerance policy from the explicit flag / named profile / DEFAULT,
then read. -/
def loadSDF (reg : ProfileRegistry) (flag : Option Bool) (profName : Option String)
    (rec : V2000Record) : Except SdfError (SdfMol × List Diag) :=
  match resolveFaultTolerant reg flag profName with
  | .error e => .error e
  | .ok ft => readV2000 ft rec

end SdfCodec

namespace ScoringBase

/-- A residue of the molecular graph: compound name, the element symbols
of its atoms, and the peptide/nucleotide chemical-class properties set by
the rule-based processor. -/
structure Residue where
  name : String
  atoms : List String
  isPeptide : Bool
  isNucleotide : Bool
deriving DecidableEq, Repr

/-- A chain: name plus residues. -/
structure Chain where
  name : String
  residues : List Residue
deriving DecidableEq, Repr

/-- A molecular entity (`ost.mol.EntityHandle`): a list of chains. -/
structure MolEntity where
  chains : List Chain
deriving DecidableEq, Repr

/-- Per-entity description from the `_entity` category; only the type
string matters here ("polymer", "non-polymer", ...). -/
structure EntityDesc where
  type : String
deriving DecidableEq, Repr

/-- The mmCIF metadata consumed by `MMCIFPrep`: the chain-name to
entity-id translation, the per-entity descriptions, and the ids of the
biounit specifications present in the file. -/
structure MMCifInfo where
  entityIdTr : List (String × String)
  entityDesc : List (String × EntityDesc)
  biounits : List String
deriving DecidableEq, Repr

/-- `MMCifInfo.GetMMCifEntityIdTr`: translate a chain name to its entity
id; total (an unknown chain name translates to a dummy id that has no
description, so it is reported as missing metadata downstream). -/
def getMMCifEntityIdTr (info : MMCifInfo) (cname : String) : String :=
  (info.entityIdTr.lookup cname).getD ""

/-- `MMCifInfo.GetEntityDesc`: `none` models the lookup raising when no
description exists for the entity id. -/
def getEntityDesc (info : MMCifInfo) (eid : String) : Option EntityDesc :=
  info.entityDesc.lookup eid

/-- `MMCifInfo.GetEntityIdsOfType`. -/
def getEntityIdsOfType (info : MMCifInfo) (t : String) : List String :=
  (info.entityDesc.filter (fun e => e.2.type == t)).map Prod.fst

/-- The ambient logging state: current severity threshold plus the stack
maintained by `ost.PushVerbosityLevel` / `ost.PopVerbosityLevel`. -/
structure LogState where
  current : Int
  stack : List Int
deriving DecidableEq, Repr

/-- `ost.PushVerbosityLevel`: save the current threshold and set a new
one. -/
def pushVerbosityLevel (l : Int) (s : LogState) : LogState :=
  ⟨l, s.current :: s.stack⟩

/-- `ost.PopVerbosityLevel`: restore the previously saved threshold. -/
def popVerbosityLevel (s : LogState) : LogState :=
  match s.stack with
  | [] => s
  | x :: rest => ⟨x, rest⟩

/-- `ost.LogLevel.Error`: the severity threshold pushed around loads. -/
def errorLogLevel : Int := 0

/-- The exceptions `MMCIFPrep` / `PDBPrep` can raise, structured so that
the context the error message carries (chain names, residue counts,
offending values) is part of the value. -/
inductive PrepError where
  | noCompoundLib
  | loadError (msg : String)
  | biounitNotFound (id : String)
  | missingEntityType (chains : List String)
  | nonpolyMissingEntityType (chains : List String)
  | nonpolyResidueCount (chain : String) (count : Nat)
  | compoundNotFound (residue : String)
  | missingSeqres (chains : List String)
  | noDotInChainName (name : String)
deriving DecidableEq, Repr

/-- The warnings `MMCIFPrep` logs in fault-tolerant mode. -/
inductive PrepWarning where
  | missingEntityType (chains : List String)
  | compoundNotFound (residue : String)
  | missingSeqres (chains : List String)
deriving DecidableEq, Repr

/-- The characters after the first `.`, or `none` when there is no `.`
(the position Python's `str.find` / `str.index` locate). -/
def afterFirstDot : List Char → Option (List Char)
  | [] => none
  | c :: rest => if c = '.' then some rest else afterFirstDot rest

/-- `name[name.find('.')+1:]`: everything after the first `.` of the
chain name, or the whole name when it contains no `.` (`str.find`
returns -1 then, and `name[0:]` is the whole name). -/
def afterFirstDotFind (s : String) : String :=
  match afterFirstDot s.data with
  | none => s
  | some l => ⟨l⟩

/-- `name[name.index('.')+1:]`: everything after the first `.`, raising
(`ValueError`) when the name contains no `.` — unlike
`afterFirstDotFind`, which falls back to the whole name. -/
def afterFirstDotIndex (s : String) : Except PrepError String :=
  match afterFirstDot s.data with
  | none => .error (.noDotInChainName s)
  | some l => .ok ⟨l⟩

/-- The asymmetric-unit chain name used for metadata lookups: when a
biounit was constructed, chain names look like `<instance>.<name>` and
the instance is stripped at the first dot (find-based, total); otherwise
the chain name itself. -/
def cnameOf (biounit : Option String) (name : String) : String :=
  match biounit with
  | none => name
  | some _ => afterFirstDotFind name

/-- The result of `io.LoadMMCIF(path, seqres=True, info=True, ...)`:
entity, seqres records (asymmetric-unit chain name, canonical sequence),
and metadata. -/
structure LoadData where
  entity : MolEntity
  seqres : List (String × String)
  info : MMCifInfo
deriving Repr

/-- `ent.Select("ele != H and ele != D")` followed by
`mol.CreateEntityFromView(..., include_exlusive_atoms=False)`: drop
hydrogen/deuterium atoms, and residues/chains left empty. -/
def removeHD (ent : MolEntity) : MolEntity :=
  ⟨ent.chains.filterMap (fun ch =>
    let rs := ch.residues.filterMap (fun r =>
      let atoms := r.atoms.filter (fun e => !(e == "H") && !(e == "D"))
      if atoms.isEmpty then none else some { r with atoms := atoms })
    if rs.isEmpty then none else some { ch with residues := rs })⟩

/-- `CleanHydrogens`: remove hydrogens/deuteriums, then re-run the
rule-based residue-property processor (an external collaborator, taken
as the parameter `process`). -/
def CleanHydrogens (process : MolEntity → MolEntity) (ent : MolEntity) : MolEntity :=
  process (removeHD ent)

/-- Load stage up to and including biounit construction: hydrogen
cleanup, then, if a biounit id is requested, exact-id lookup among the
file's biounit specs (`RuntimeError` when absent) and assembly expansion
via the external `CreateBU` collaborator. -/
def prepEnt (process : MolEntity → MolEntity)
    (createBU : String → MolEntity → MolEntity) (ld : LoadData)
    (biounit : Option String) : Except PrepError MolEntity :=
  let ent := CleanHydrogens process ld.entity
  match biounit with
  | none => .ok ent
  | some b =>
    if ld.info.biounits.contains b then .ok (createBU b ent)
    else .error (.biounitNotFound b)

/-- The chains (by stripped name) for which the entity-type metadata is
not resolvable: the entity-id translation followed by the description
lookup fails. -/
def missingEntityTypes (info : MMCifInfo) (biounit : Option String)
    (ent : MolEntity) : List String :=
  ent.chains.filterMap (fun ch =>
    let cname := cnameOf biounit ch.name
    match getEntityDesc info (getMMCifEntityIdTr info cname) with
    | none => some cname
    | some _ => none)

/-- The peptide-or-nucleotide residue composition test used by the
fault-tolerant fallback selection. -/
def isPolyResidue (r : Residue) : Bool :=
  r.isPeptide || r.isNucleotide

/-- Per-chain effect of `Select("peptide=true or nucleotide=true")`:
keep the peptide/nucleotide residues, or drop the chain if none are
left. -/
def polyCompChain (ch : Chain) : Option Chain :=
  if ch.residues.filter isPolyResidue = [] then none
  else some { ch with residues := ch.residues.filter isPolyResidue }

/-- `mmcif_entity.Select("peptide=true or nucleotide=true")` plus
`CreateEntityFromView`: keep the peptide/nucleotide residues, dropping
chains left empty. -/
def polyByComposition (ent : MolEntity) : MolEntity :=
  ⟨ent.chains.filterMap polyCompChain⟩

/-- Metadata-driven polymer selection: keep exactly the chains whose
entity id has explicit type "polymer" (the `gcpoly` generic-property
marking followed by `Select("gcpoly:0=1")`). -/
def polyByEntityIds (info : MMCifInfo) (biounit : Option String)
    (ent : MolEntity) : MolEntity :=
  ⟨ent.chains.filter (fun ch =>
    (getEntityIdsOfType info "polymer").contains
      (getMMCifEntityIdTr info (cnameOf biounit ch.name)))⟩

/-- Entity-classification stage: with complete metadata, classify by
entity ids; with incomplete metadata, fail in strict mode listing every
chain missing metadata, or warn and fall back to the residue-composition
selection in fault-tolerant mode (ignoring the metadata entirely). -/
def classifyPolymers (info : MMCifInfo) (biounit : Option String)
    (fault_tolerant : Bool) (ent : MolEntity) :
    Except PrepError (MolEntity × List PrepWarning) :=
  if missingEntityTypes info biounit ent = [] then
    .ok (polyByEntityIds info biounit ent, [])
  else if fault_tolerant then
    .ok (polyByComposition ent, [.missingEntityType (missingEntityTypes info biounit ent)])
  else .error (.missingEntityType (missingEntityTypes info biounit ent))

/-- The chains marked with a `nonpolyid` generic property: those whose
entity id has explicit type "non-polymer". -/
def nonPolyChains (info : MMCifInfo) (biounit : Option String)
    (ent : MolEntity) : List Chain :=
  ent.chains.filter (fun ch =>
    (getEntityIdsOfType info "non-polymer").contains
      (getMMCifEntityIdTr info (cnameOf biounit ch.name)))

/-- Name of the first residue (`view.residues[0].name`); only consulted
after the residue count was checked to be exactly 1. -/
def headResName : List Residue → String
  | [] => ""
  | r :: _ => r.name

/-- Per-non-polymer-chain loop: each non-polymer view must contain
exactly one residue (hard `RuntimeError` naming the chain and the count,
in either mode); its compound-library lookup failure is a warning in
fault-tolerant mode and a `RuntimeError` otherwise. -/
def nonPolyLoop (clib : String → Bool) (fault_tolerant : Bool) :
    List Chain → Except PrepError (List MolEntity × List PrepWarning)
  | [] => .ok ([], [])
  | ch :: rest =>
    if ch.residues.length ≠ 1 then
      .error (.nonpolyResidueCount ch.name ch.residues.length)
    else if clib (headResName ch.residues) then
      match nonPolyLoop clib fault_tolerant rest with
      | .error e => .error e
      | .ok (l, w) => .ok (⟨[ch]⟩ :: l, w)
    else if fault_tolerant then
      match nonPolyLoop clib fault_tolerant rest with
      | .error e => .error e
      | .ok (l, w) => .ok (⟨[ch]⟩ :: l, .compoundNotFound (headResName ch.residues) :: w)
    else .error (.compoundNotFound (headResName ch.residues))

/-- Non-polymer extraction stage: requires complete entity-type metadata
(`RuntimeError` in either mode when incomplete), then processes each
non-polymer chain. -/
def extractNonPolyStage (clib : String → Bool) (info : MMCifInfo)
    (biounit : Option String) (fault_tolerant : Bool)
    (missing : List String) (ent : MolEntity) :
    Except PrepError (List MolEntity × List PrepWarning) :=
  if missing = [] then
    nonPolyLoop clib fault_tolerant (nonPolyChains info biounit ent)
  else .error (.nonpolyMissingEntityType missing)

/-- `seq.GetGaplessString()`: the sequence with gap characters removed. -/
def gapless (s : String) : String :=
  ⟨s.data.filter (fun c => !(c == '-'))⟩

/-- Deduplicate the seqres records per entity id, first sequence seen per
entity wins; `seen` is the set of entity ids already processed. -/
def buildSeqres (info : MMCifInfo) :
    List (String × String) → List String → List (String × String)
  | [], _ => []
  | (name, s) :: rest, seen =>
    let eid := getMMCifEntityIdTr info name
    if seen.contains eid then buildSeqres info rest seen
    else (eid, gapless s) :: buildSeqres info rest (eid :: seen)

/-- The deduplicated per-entity sequence list. -/
def seqresOf (info : MMCifInfo) (sq : List (String × String)) :
    List (String × String) :=
  buildSeqres info sq []

/-- The polymer chains (by stripped name) whose entity id is missing from
the deduplicated per-entity sequence set. -/
def missingSeqresChains (info : MMCifInfo) (biounit : Option String)
    (sq : List (String × String)) (poly : MolEntity) : List String :=
  let processed := (seqresOf info sq).map Prod.fst
  poly.chains.filterMap (fun ch =>
    let cname := cnameOf biounit ch.name
    if processed.contains (getMMCifEntityIdTr info cname) then none
    else some cname)

/-- Biounit branch of the chain-to-entity mapping: strip the assembly
instance at the first dot using the raising `index`-based split, then
translate. -/
def buMapLoop (info : MMCifInfo) :
    List Chain → Except PrepError (List (String × String))
  | [] => .ok []
  | ch :: rest =>
    match afterFirstDotIndex ch.name with
    | .error e => .error e
    | .ok au =>
      match buMapLoop info rest with
      | .error e => .error e
      | .ok l => .ok ((ch.name, getMMCifEntityIdTr info au) :: l)

/-- The chain-to-entity mapping (`trg_seqres_mapping`): keyed by output
chain name; when a biounit was built, the asymmetric-unit name used for
the lookup is recovered with the raising `index`-based split. -/
def buildTrgMapping (info : MMCifInfo) (biounit : Option String)
    (poly : MolEntity) : Except PrepError (List (String × String)) :=
  match biounit with
  | none =>
    .ok (poly.chains.map (fun ch => (ch.name, getMMCifEntityIdTr info ch.name)))
  | some _ => buMapLoop info poly.chains

/-- Sequence-mapping stage: build the deduplicated sequence list, check
seqres coverage of every polymer chain (strict-mode `RuntimeError`,
fault-tolerant warning that sets both outputs to `None`), else build the
chain-to-entity mapping. -/
def seqresMappingStage (info : MMCifInfo) (biounit : Option String)
    (fault_tolerant : Bool) (sqIn : List (String × String))
    (poly : MolEntity) :
    Except PrepError (Option (List (String × String)) ×
      Option (List (String × String)) × List PrepWarning) :=
  if missingSeqresChains info biounit sqIn poly = [] then
    match buildTrgMapping info biounit poly with
    | .error e => .error e
    | .ok trg => .ok (some (seqresOf info sqIn), some trg, [])
  else if fault_tolerant then
    .ok (none, none, [.missingSeqres (missingSeqresChains info biounit sqIn poly)])
  else .error (.missingSeqres (missingSeqresChains info biounit sqIn poly))

/-- The outputs of `MMCIFPrep`, as a structure with optional fields
(the Python function returns a flag-dependent tuple shape). -/
structure PrepResult where
  poly_ent : MolEntity
  non_poly_entities : Option (List MolEntity)
  seqres : Option (List (String × String))
  trg_seqres_mapping : Option (List (String × String))
  warnings : List PrepWarning
deriving Repr

/-- The body of `MMCIFPrep` after the load succeeded: biounit
construction, entity classification, optional non-polymer extraction,
optional sequence mapping. -/
def MMCIFPrepBody (process : MolEntity → MolEntity)
    (createBU : String → MolEntity → MolEntity) (clib : String → Bool)
    (ld : LoadData) (biounit : Option String) (extract_nonpoly : Bool)
    (fault_tolerant : Bool) (extract_seqres_mapping : Bool) :
    Except PrepError PrepResult :=
  match prepEnt process createBU ld biounit with
  | .error e => .error e
  | .ok ent =>
    match classifyPolymers ld.info biounit fault_tolerant ent with
    | .error e => .error e
    | .ok (poly, w1) =>
      match (if extract_nonpoly then
          match extractNonPolyStage clib ld.info biounit fault_tolerant
              (missingEntityTypes ld.info biounit ent) ent with
          | .error e => .error e
          | .ok (l, w) => .ok (some l, w)
        else Except.ok (none, [])) with
      | .error e => .error e
      | .ok (np, w2) =>
        match (if extract_seqres_mapping then
            seqresMappingStage ld.info biounit fault_tolerant ld.seqres poly
          else Except.ok (none, none, [])) with
        | .error e => .error e
        | .ok (sq, trg, w3) => .ok ⟨poly, np, sq, trg, w1 ++ w2 ++ w3⟩

/-- `MMCIFPrep`: compound-library check, then the verbosity threshold is
pushed to Error level, the file is loaded (`io.LoadMMCIF`, an external
collaborator taken as the `load` parameter, a function of the
fault-tolerant flag), the threshold is popped after a successful load,
and the body runs.  Mirrors the manual Push/Pop pairing of the source:
a load that raises skips the pop. -/
def MMCIFPrep (process : MolEntity → MolEntity)
    (createBU : String → MolEntity → MolEntity)
    (clib : Option (String → Bool)) (load : Bool → Except String LoadData)
    (biounit : Option String) (extract_nonpoly : Bool)
    (fault_tolerant : Bool) (extract_seqres_mapping : Bool)
    (log : LogState) : Except PrepError PrepResult × LogState :=
  match clib with
  | none => (.error .noCompoundLib, log)
  | some lib =>
    let log1 := pushVerbosityLevel errorLogLevel log
    match load fault_tolerant with
    | .error msg => (.error (.loadError msg), log1)
    | .ok ld =>
      let log2 := popVerbosityLevel log1
      (MMCIFPrepBody process createBU lib ld biounit extract_nonpoly
        fault_tolerant extract_seqres_mapping, log2)

/-- `PDBPrep`: compound-library check, verbosity pushed to Error level,
load (`io.LoadPDB` as the `load` parameter), pop after a successful
load, hydrogen cleanup.  Same manual Push/Pop pairing as `MMCIFPrep`. -/
def PDBPrep (process : MolEntity → MolEntity)
    (clib : Option (String → Bool)) (load : Bool → Except String MolEntity)
    (fault_tolerant : Bool) (log : LogState) :
    Except PrepError MolEntity × LogState :=
  match clib with
  | none => (.error .noCompoundLib, log)
  | some _ =>
    let log1 := pushVerbosityLevel errorLogLevel log
    match load fault_tolerant with
    | .error msg => (.error (.loadError msg), log1)
    | .ok ent => (.ok (CleanHydrogens process ent), popVerbosityLevel log1)

end ScoringBase

namespace Fixtures

open SdfCodec ScoringBase

/-- A small two-atom molecule with one single bond. -/
def wMol : SdfMol := ⟨[⟨"N", 0⟩, ⟨"C", 0⟩], [⟨1, 2, 1⟩]⟩

/-- A molecule with an atom of charge +4 (outside the writable range). -/
def wMol4 : SdfMol := ⟨[⟨"N", 4⟩], []⟩

/-- A molecule with an atom of charge -4 (outside the writable range). -/
def wMolNeg4 : SdfMol := ⟨[⟨"N", -4⟩], []⟩

/-- A V2000 record with an `M  CHG` block assigning +1 to atom 1 and -1
to atom 3, while atom 1 carries legacy charge code 7 (-3): the block
must win and atom 2 must get charge 0. -/
def wRecMChg : V2000Record :=
  ⟨[⟨"N", 7⟩, ⟨"O", 0⟩, ⟨"Cl", 0⟩], [⟨1, 2, 1⟩], some [(1, 1), (3, -1)]⟩

/-- A V2000 record containing a dative (order 9) bond. -/
def wRec9 : V2000Record := ⟨[⟨"N", 0⟩, ⟨"C", 0⟩], [⟨1, 2, 9⟩], none⟩

/-- A molecule containing a dative (order 9) bond plus a single bond. -/
def wMol9 : SdfMol := ⟨[⟨"Mg", 0⟩, ⟨"N", 0⟩], [⟨1, 2, 9⟩, ⟨1, 2, 1⟩]⟩

/-- A peptide residue. -/
def wResAla : Residue := ⟨"ALA", ["N", "C"], true, false⟩

/-- A non-polymer (ligand) residue, unknown chemical class. -/
def wResLig : Residue := ⟨"LIG", ["C"], false, false⟩

/-- mmCIF metadata with an entity-id translation for chain A but no
entity description at all: chain A's entity type is unresolvable. -/
def wInfoNoDesc : MMCifInfo := ⟨[("A", "1")], [], []⟩

/-- Load result whose single chain A has unresolvable entity-type
metadata. -/
def wLdMissing : LoadData := ⟨⟨[⟨"A", [wResAla]⟩]⟩, [], wInfoNoDesc⟩

/-- mmCIF metadata for a polymer chain A (entity 1) and a non-polymer
chain L (entity 2). -/
def wInfoNonPoly : MMCifInfo :=
  ⟨[("A", "1"), ("L", "2")], [("1", ⟨"polymer"⟩), ("2", ⟨"non-polymer"⟩)], []⟩

/-- Load result whose non-polymer chain L resolves to two residues. -/
def wLdNonPoly2 : LoadData :=
  ⟨⟨[⟨"A", [wResAla]⟩, ⟨"L", [wResLig, wResLig]⟩]⟩, [("A", "MK")], wInfoNonPoly⟩

/-- mmCIF metadata for a single polymer chain A (entity 1). -/
def wInfoPoly : MMCifInfo := ⟨[("A", "1")], [("1", ⟨"polymer"⟩)], []⟩

/-- Load result for polymer chain A with no seqres records at all. -/
def wLdNoSeqres : LoadData := ⟨⟨[⟨"A", [wResAla]⟩]⟩, [], wInfoPoly⟩

/-- An empty load result (used to exercise the normal-path logging
behavior). -/
def wLdEmpty : LoadData := ⟨⟨[]⟩, [], ⟨[], [], []⟩⟩

/-- mmCIF metadata for the dot-free-chain-name divergence: polymer chain
X (entity 1), with a seqres record and one biounit spec `bu1`. -/
def wInfoDot : MMCifInfo := ⟨[("X", "1")], [("1", ⟨"polymer"⟩)], ["bu1"]⟩

/-- Load result whose biounit expansion (modelled by an identity
`CreateBU`) yields a polymer chain named `X` containing no dot. -/
def wLdDot : LoadData := ⟨⟨[⟨"X", [wResAla]⟩]⟩, [("X", "MKV")], wInfoDot⟩

end Fixtures

namespace SdfCodec

/-- The legacy charge-code table and its inverse compose to the identity
on the representable range [-3, 3]. -/
theorem encode_decode_charge (c : Int) (h1 : -3 ≤ c) (h2 : c ≤ 3) :
    ∃ code, encodeCharge c = some code ∧ decodeChargeCode code = some c := by
  interval_cases c <;> exact ⟨_, rfl, rfl⟩

/-- Encoding a list of in-range atoms succeeds, and decoding it back
reproduces the atoms exactly. -/
theorem encodeAtoms_roundtrip (l : List SdfAtom) :
    ∀ i, (∀ a ∈ l, -3 ≤ a.charge ∧ a.charge ≤ 3) →
      ∃ v, encodeAtoms i l = .ok v ∧ decodeAtomsLegacy i v = .ok l := by
  induction l with
  | nil => exact fun i _ => ⟨[], rfl, rfl⟩
  | cons a rest ih =>
    intro i h
    obtain ⟨c1, c2⟩ := h a (List.mem_cons_self a rest)
    obtain ⟨code, he, hd⟩ := encode_decode_charge a.charge c1 c2
    obtain ⟨v, hv, hdec⟩ := ih (i + 1) (fun x hx => h x (List.mem_cons_of_mem a hx))
    refine ⟨⟨a.element, code⟩ :: v, ?_, ?_⟩
    · unfold encodeAtoms
      rw [he, hv]
    · unfold decodeAtomsLegacy
      rw [hd, hdec]

/-- Decoding a bond block whose orders are all standard succeeds,
reproduces the bonds, and emits no diagnostics, in either mode. -/
theorem decodeBonds_valid (ft : Bool) (l : List SdfBond)
    (h : ∀ b ∈ l, b.order = 1 ∨ b.order = 2 ∨ b.order = 3 ∨ b.order = 4) :
    decodeBonds ft l = .ok (l, []) := by
  induction l with
  | nil => rfl
  | cons b rest ih =>
    have hb := h b (List.mem_cons_self b rest)
    have hrest := ih (fun x hx => h x (List.mem_cons_of_mem b hx))
    unfold decodeBonds
    rw [if_pos hb, hrest]

/-- The legacy writer leaves a bond block without order-9 bonds
untouched and emits no warnings for it. -/
theorem write_bonds_no_dative (l : List SdfBond)
    (h : ∀ b ∈ l, b.order = 1 ∨ b.order = 2 ∨ b.order = 3 ∨ b.order = 4) :
    l.map downgradeDative = l ∧ dativeWarnings l = [] := by
  induction l with
  | nil => exact ⟨rfl, rfl⟩
  | cons b rest ih =>
    have hb := h b (List.mem_cons_self b rest)
    have hbn : b.order ≠ 9 := by rcases hb with h | h | h | h <;> omega
    obtain ⟨h1, h2⟩ := ih (fun x hx => h x (List.mem_cons_of_mem b hx))
    constructor
    · simp [downgradeDative, hbn, h1]
    · simp [dativeWarnings, List.filter_cons, hbn] at h2 ⊢
      simpa [dativeWarnings] using h2

/-- C2.  For every atom and every integer charge c in [-3, 3], setting
the atom's charge to c, writing the graph to a connection-table record,
and reading that record back yields the graph unchanged — in particular
the atom's charge is exactly c — provided all other charges are in
[-3, 3] and all bond orders are in {1, 2, 3, 4} (4 = aromatic). -/
theorem sdf_charge_roundtrip (m : SdfMol) (i : Nat) (c : Int)
    (hc : -3 ≤ c ∧ c ≤ 3)
    (hall : ∀ a ∈ m.atoms, -3 ≤ a.charge ∧ a.charge ≤ 3)
    (hb : ∀ b ∈ m.bonds, b.order = 1 ∨ b.order = 2 ∨ b.order = 3 ∨ b.order = 4)
    (ft : Bool) :
    ∃ rec, writeV2000 (setCharge m i c) = .ok (rec, [])
      ∧ readV2000 ft rec = .ok (setCharge m i c, [])
      ∧ ∀ h : i < (setCharge m i c).atoms.length,
          ((setCharge m i c).atoms.get ⟨i, h⟩).charge = c := by
  have hatoms : (setCharge m i c).atoms
      = m.atoms.set i { (m.atoms.getD i ⟨"", 0⟩) with charge := c } := rfl
  have hbonds : (setCharge m i c).bonds = m.bonds := rfl
  have hall' : ∀ a ∈ (setCharge m i c).atoms, -3 ≤ a.charge ∧ a.charge ≤ 3 := by
    intro a ha
    rw [hatoms] at ha
    rcases List.mem_or_eq_of_mem_set ha with h | h
    · exact hall a h
    · rw [h]; exact hc
  obtain ⟨v, hv, hd⟩ := encodeAtoms_roundtrip (setCharge m i c).atoms 0 hall'
  have hb' : ∀ b ∈ (setCharge m i c).bonds,
      b.order = 1 ∨ b.order = 2 ∨ b.order = 3 ∨ b.order = 4 := by
    rw [hbonds]; exact hb
  obtain ⟨hmap, hwarn⟩ := write_bonds_no_dative (setCharge m i c).bonds hb'
  refine ⟨⟨v, (setCharge m i c).bonds, none⟩, ?_, ?_, ?_⟩
  · unfold writeV2000
    rw [hv, hmap, hwarn]
  · unfold readV2000 decodeAtoms
    rw [hd, decodeBonds_valid ft _ hb']
  · intro h
    simp [setCharge, List.get_eq_getElem, List.getElem_set_self]

/-- A charge outside [-3, 3] has no legacy encoding. -/
theorem encodeCharge_none (c : Int) (h : c < -3 ∨ 3 < c) : encodeCharge c = none := by
  unfold encodeCharge
  split_ifs <;> first | rfl | omega

/-- Encoding a list containing an out-of-range atom fails with a range
error carrying an out-of-range charge. -/
theorem encodeAtoms_error (l : List SdfAtom) :
    ∀ j, (∃ a ∈ l, a.charge < -3 ∨ 3 < a.charge) →
      ∃ i c, encodeAtoms j l = .error (.rangeError i c) ∧ (c < -3 ∨ 3 < c) := by
  induction l with
  | nil =>
    intro j h
    obtain ⟨a, ha, _⟩ := h
    simp at ha
  | cons a rest ih =>
    intro j h
    by_cases hin : -3 ≤ a.charge ∧ a.charge ≤ 3
    · obtain ⟨code, he, _⟩ := encode_decode_charge a.charge hin.1 hin.2
      have hrest : ∃ x ∈ rest, x.charge < -3 ∨ 3 < x.charge := by
        obtain ⟨x, hx, hxr⟩ := h
        rcases List.mem_cons.mp hx with hxa | hx'
        · rw [hxa] at hxr; omega
        · exact ⟨x, hx', hxr⟩
      obtain ⟨i, c, he2, hcr⟩ := ih (j + 1) hrest
      refine ⟨i, c, ?_, hcr⟩
      unfold encodeAtoms
      rw [he, he2]
    · have hout : a.charge < -3 ∨ 3 < a.charge := by omega
      refine ⟨j, a.charge, ?_, hout⟩
      unfold encodeAtoms
      rw [encodeCharge_none a.charge hout]

/-- C3.  A graph containing an atom with formal charge outside [-3, 3]
makes both connection-table writers fail with a range error carrying the
out-of-range charge; the charge is never clamped, and neither writer
consults any fault-tolerance flag or profile, so fault-tolerant mode
provides no bypass. -/
theorem sdf_write_range_error (m : SdfMol)
    (h : ∃ a ∈ m.atoms, a.charge < -3 ∨ 3 < a.charge) :
    (∃ i c, writeV2000 m = .error (.rangeError i c) ∧ (c < -3 ∨ 3 < c))
    ∧ (∃ i c, writeV3000 m = .error (.rangeError i c) ∧ (c < -3 ∨ 3 < c)) := by
  obtain ⟨i, c, he, hcr⟩ := encodeAtoms_error m.atoms 0 h
  constructor
  · refine ⟨i, c, ?_, hcr⟩
    unfold writeV2000
    rw [he]
  · refine ⟨i, c, ?_, hcr⟩
    unfold writeV3000
    rw [he]

/-- The length of the override-block atom decoding equals the input
length. -/
theorem decodeAtomsMChg_length (chg : List (Nat × Int)) (l : List V2000Atom) :
    ∀ i, (decodeAtomsMChg chg i l).length = l.length := by
  induction l with
  | nil => intro i; rfl
  | cons a rest ih => intro i; simp [decodeAtomsMChg, ih]

/-- Each atom decoded under an override block gets exactly the charge
the block lists for its 1-based position, defaulting to 0. -/
theorem decodeAtomsMChg_charge (chg : List (Nat × Int)) (l : List V2000Atom) :
    ∀ i j (h : j < (decodeAtomsMChg chg i l).length),
      ((decodeAtomsMChg chg i l).get ⟨j, h⟩).charge = (chg.lookup (i + j)).getD 0 := by
  induction l with
  | nil =>
    intro i j h
    simp [decodeAtomsMChg] at h
  | cons a rest ih =>
    intro i j h
    cases j with
    | zero => simp [decodeAtomsMChg]
    | succ k =>
      have hk : k < (decodeAtomsMChg chg (i + 1) rest).length := by
        have hh := h
        simp only [decodeAtomsMChg, List.length_cons] at hh
        omega
      have step : i + (k + 1) = (i + 1) + k := by omega
      simp only [decodeAtomsMChg, List.get_eq_getElem, List.getElem_cons_succ, step]
      exact ih (i + 1) k hk

/-- C4.  A record carrying an `M  CHG` override block reads so that every
atom listed in the block (by 1-based index) gets exactly the listed
charge and every unlisted atom gets charge 0; the atoms' legacy charge
codes are arbitrary in the statement, hence ignored — even codes that
would be format errors on the legacy path. -/
theorem sdf_mchg_authoritative (rec : V2000Record) (chg : List (Nat × Int)) (ft : Bool)
    (hm : rec.mchg = some chg)
    (hb : ∀ b ∈ rec.bonds, b.order = 1 ∨ b.order = 2 ∨ b.order = 3 ∨ b.order = 4) :
    ∃ mol, readV2000 ft rec = .ok (mol, [])
      ∧ mol.atoms.length = rec.atoms.length
      ∧ ∀ j (h : j < mol.atoms.length),
          (mol.atoms.get ⟨j, h⟩).charge = (chg.lookup (j + 1)).getD 0 := by
  refine ⟨⟨decodeAtomsMChg chg 1 rec.atoms, rec.bonds⟩, ?_, ?_, ?_⟩
  · unfold readV2000 decodeAtoms
    rw [hm, decodeBonds_valid ft _ hb]
  · exact decodeAtomsMChg_length chg rec.atoms 1
  · intro j h
    have hj := decodeAtomsMChg_charge chg rec.atoms 1 j h
    rwa [Nat.add_comm 1 j] at hj

/-- Strict decoding of a bond block fails at the first order-9 bond. -/
theorem decodeBonds_strict_error (pre : List SdfBond) (b : SdfBond) (post : List SdfBond)
    (hpre : ∀ x ∈ pre, x.order = 1 ∨ x.order = 2 ∨ x.order = 3 ∨ x.order = 4)
    (h9 : b.order = 9) :
    decodeBonds false (pre ++ b :: post) = .error (.badBondOrder b) := by
  induction pre with
  | nil =>
    rw [List.nil_append]
    simp only [decodeBonds]
    rw [if_neg (by omega), if_pos h9, if_neg (by simp)]
  | cons x rest ih =>
    have hx := hpre x (List.mem_cons_self x rest)
    have hrest := ih (fun y hy => hpre y (List.mem_cons_of_mem x hy))
    rw [List.cons_append]
    simp only [decodeBonds]
    rw [if_pos hx, hrest]

/-- Fault-tolerant decoding accepts a bond block whose orders are
standard or 9, reproduces it exactly, and emits one error-severity
dative diagnostic per order-9 bond. -/
theorem decodeBonds_tolerant (l : List SdfBond)
    (h : ∀ x ∈ l, x.order = 1 ∨ x.order = 2 ∨ x.order = 3 ∨ x.order = 4 ∨ x.order = 9) :
    decodeBonds true l
      = .ok (l, (l.filter (fun x => x.order = 9)).map dativeDiag) := by
  induction l with
  | nil => rfl
  | cons x rest ih =>
    have hx := h x (List.mem_cons_self x rest)
    have hrest := ih (fun y hy => h y (List.mem_cons_of_mem x hy))
    by_cases h9 : x.order = 9
    · unfold decodeBonds
      rw [if_neg (by omega), if_pos h9, hrest]
      simp [List.filter_cons, h9]
    · have hx4 : x.order = 1 ∨ x.order = 2 ∨ x.order = 3 ∨ x.order = 4 := by
        rcases hx with h | h | h | h | h
        · exact Or.inl h
        · exact Or.inr (Or.inl h)
        · exact Or.inr (Or.inr (Or.inl h))
        · exact Or.inr (Or.inr (Or.inr h))
        · exact absurd h h9
      unfold decodeBonds
      rw [if_pos hx4, hrest]
      simp [List.filter_cons, h9]

/-- C5.  Reading a record with an order-9 (dative) bond fails with a
format error identifying the bond when the resolved fault-tolerant flag
is false — via the DEFAULT profile, the explicit flag, or the named
profile — and succeeds, yielding the bond with order 9 plus an
error-severity diagnostic, when the flag is true via the explicit flag,
the named SLOPPY profile, or a DEFAULT entry mutated to be
fault-tolerant; restoring DEFAULT to its original strict value makes the
read fail again. -/
theorem sdf_dative_fault_tolerance (rec : V2000Record) (al : List SdfAtom)
    (pre post : List SdfBond) (b : SdfBond)
    (hatoms : decodeAtoms rec = .ok al)
    (hsplit : rec.bonds = pre ++ b :: post)
    (hpre : ∀ x ∈ pre, x.order = 1 ∨ x.order = 2 ∨ x.order = 3 ∨ x.order = 4)
    (hpost : ∀ x ∈ post,
      x.order = 1 ∨ x.order = 2 ∨ x.order = 3 ∨ x.order = 4 ∨ x.order = 9)
    (h9 : b.order = 9) :
    loadSDF initRegistry none none rec = .error (.badBondOrder b)
    ∧ loadSDF initRegistry (some false) none rec = .error (.badBondOrder b)
    ∧ loadSDF initRegistry none (some "DEFAULT") rec = .error (.badBondOrder b)
    ∧ (∃ d, loadSDF initRegistry (some true) none rec = .ok (⟨al, rec.bonds⟩, d)
        ∧ dativeDiag b ∈ d ∧ (dativeDiag b).severity = .error)
    ∧ (∃ d, loadSDF initRegistry none (some "SLOPPY") rec = .ok (⟨al, rec.bonds⟩, d)
        ∧ dativeDiag b ∈ d ∧ (dativeDiag b).severity = .error)
    ∧ (∃ d, loadSDF (setProfile initRegistry "DEFAULT" ⟨true⟩) none none rec
        = .ok (⟨al, rec.bonds⟩, d)
        ∧ dativeDiag b ∈ d ∧ (dativeDiag b).severity = .error)
    ∧ loadSDF (setProfile (setProfile initRegistry "DEFAULT" ⟨true⟩) "DEFAULT" ⟨false⟩)
        none none rec = .error (.badBondOrder b) := by
  have hall : ∀ x ∈ rec.bonds,
      x.order = 1 ∨ x.order = 2 ∨ x.order = 3 ∨ x.order = 4 ∨ x.order = 9 := by
    rw [hsplit]
    intro x hx
    rcases List.mem_append.mp hx with hx1 | hx2
    · rcases hpre x hx1 with h | h | h | h
      · exact Or.inl h
      · exact Or.inr (Or.inl h)
      · exact Or.inr (Or.inr (Or.inl h))
      · exact Or.inr (Or.inr (Or.inr (Or.inl h)))
    · rcases List.mem_cons.mp hx2 with hxb | hx3
      · rw [hxb]; omega
      · exact hpost x hx3
  have hstrict : readV2000 false rec = .error (.badBondOrder b) := by
    unfold readV2000
    rw [hatoms, hsplit, decodeBonds_strict_error pre b post hpre h9]
  have htol : readV2000 true rec
      = .ok (⟨al, rec.bonds⟩, (rec.bonds.filter (fun x => x.order = 9)).map dativeDiag) := by
    unfold readV2000
    rw [hatoms, decodeBonds_tolerant rec.bonds hall]
  have hmem : dativeDiag b ∈ (rec.bonds.filter (fun x => x.order = 9)).map dativeDiag := by
    refine List.mem_map_of_mem dativeDiag (List.mem_filter.mpr ⟨?_, by simp [h9]⟩)
    rw [hsplit]
    exact List.mem_append_right pre (List.mem_cons_self b post)
  refine ⟨hstrict, hstrict, hstrict, ⟨_, htol, hmem, rfl⟩, ⟨_, htol, hmem, rfl⟩,
    ⟨_, htol, hmem, rfl⟩, hstrict⟩

/-- All orders produced by the legacy writer's downgrade are standard
when the input orders are standard-or-9. -/
theorem downgrade_orders_valid (l : List SdfBond)
    (h : ∀ x ∈ l, x.order = 1 ∨ x.order = 2 ∨ x.order = 3 ∨ x.order = 4 ∨ x.order = 9) :
    ∀ x ∈ l.map downgradeDative,
      x.order = 1 ∨ x.order = 2 ∨ x.order = 3 ∨ x.order = 4 := by
  intro x hx
  obtain ⟨y, hy, hxy⟩ := List.mem_map.mp hx
  have hyo := h y hy
  rw [← hxy]
  unfold downgradeDative
  split_ifs with h9
  · exact Or.inl rfl
  · rcases hyo with h | h | h | h | h
    · exact Or.inl h
    · exact Or.inr (Or.inl h)
    · exact Or.inr (Or.inr (Or.inl h))
    · exact Or.inr (Or.inr (Or.inr h))
    · exact absurd h h9

/-- C6.  Writing a graph containing an order-9 bond to the legacy
(V2000) dialect downgrades that bond to order 1 and emits a
warning-severity diagnostic identifying the lossy conversion, so that
re-reading the written record (even strictly) yields the bond with
order 1; writing through the extended (V3000) dialect preserves order 9
exactly on a write/read round trip. -/
theorem sdf_dative_write_downgrade (m : SdfMol) (pre post : List SdfBond) (b : SdfBond)
    (hsplit : m.bonds = pre ++ b :: post) (h9 : b.order = 9)
    (hall : ∀ a ∈ m.atoms, -3 ≤ a.charge ∧ a.charge ≤ 3)
    (horders : ∀ x ∈ m.bonds,
      x.order = 1 ∨ x.order = 2 ∨ x.order = 3 ∨ x.order = 4 ∨ x.order = 9) :
    ∃ rec ws, writeV2000 m = .ok (rec, ws)
      ∧ rec.bonds = m.bonds.map downgradeDative
      ∧ downgradeDative b = { b with order := 1 }
      ∧ { b with order := 1 } ∈ rec.bonds
      ∧ lossyDativeDiag b ∈ ws ∧ (lossyDativeDiag b).severity = .warning
      ∧ readV2000 false rec = .ok (⟨m.atoms, m.bonds.map downgradeDative⟩, [])
      ∧ writeV3000 m = .ok ⟨m.atoms, m.bonds⟩
      ∧ readV3000 ⟨m.atoms, m.bonds⟩ = .ok (⟨m.atoms, m.bonds⟩, []) := by
  obtain ⟨v, hv, hd⟩ := encodeAtoms_roundtrip m.atoms 0 hall
  have hdb : downgradeDative b = { b with order := 1 } := by
    unfold downgradeDative
    rw [if_pos h9]
  have hmemb : b ∈ m.bonds := by
    rw [hsplit]
    exact List.mem_append_right pre (List.mem_cons_self b post)
  refine ⟨⟨v, m.bonds.map downgradeDative, none⟩, dativeWarnings m.bonds, ?_, rfl, hdb,
    ?_, ?_, rfl, ?_, ?_, rfl⟩
  · unfold writeV2000
    rw [hv]
  · rw [← hdb]
    exact List.mem_map_of_mem downgradeDative hmemb
  · refine List.mem_map_of_mem lossyDativeDiag (List.mem_filter.mpr ⟨hmemb, by simp [h9]⟩)
  · unfold readV2000 decodeAtoms
    rw [hd, decodeBonds_valid false _ (downgrade_orders_valid m.bonds horders)]
  · unfold writeV3000
    rw [hv]

end SdfCodec

namespace Witness

open SdfCodec Fixtures

/-- C2 witness: the round-trip theorem applied to a concrete two-atom
molecule with the first atom's charge set to -2. -/
theorem sdf_charge_roundtrip_witness :
    ∃ rec, writeV2000 (setCharge wMol 0 (-2)) = .ok (rec, [])
      ∧ readV2000 true rec = .ok (setCharge wMol 0 (-2), [])
      ∧ ∀ h : (0 : Nat) < (setCharge wMol 0 (-2)).atoms.length,
          ((setCharge wMol 0 (-2)).atoms.get ⟨0, h⟩).charge = -2 :=
  sdf_charge_roundtrip wMol 0 (-2) (by decide) (by decide) (by decide) true

/-- C3 witness: the write-time range error at charge +4 and at charge
-4, for both dialect writers. -/
theorem sdf_write_range_error_witness :
    ((∃ i c, writeV2000 wMol4 = .error (.rangeError i c) ∧ (c < -3 ∨ 3 < c))
      ∧ ∃ i c, writeV3000 wMol4 = .error (.rangeError i c) ∧ (c < -3 ∨ 3 < c))
    ∧ ((∃ i c, writeV2000 wMolNeg4 = .error (.rangeError i c) ∧ (c < -3 ∨ 3 < c))
      ∧ ∃ i c, writeV3000 wMolNeg4 = .error (.rangeError i c) ∧ (c < -3 ∨ 3 < c)) :=
  ⟨sdf_write_range_error wMol4 (by decide), sdf_write_range_error wMolNeg4 (by decide)⟩

/-- C4 witness: the override-block theorem applied to a concrete record
whose first atom carries legacy code 7 (-3) but is listed as +1 in the
block, whose third atom is listed as -1, and whose second atom is
unlisted. -/
theorem sdf_mchg_authoritative_witness :
    ∃ mol, readV2000 false wRecMChg = .ok (mol, [])
      ∧ mol.atoms.length = wRecMChg.atoms.length
      ∧ ∀ j (h : j < mol.atoms.length),
          (mol.atoms.get ⟨j, h⟩).charge
            = (([(1, 1), (3, -1)] : List (Nat × Int)).lookup (j + 1)).getD 0 :=
  sdf_mchg_authoritative wRecMChg [(1, 1), (3, -1)] false rfl (by decide)

/-- C5 witness: the dative-bond policy theorem applied to a concrete
record with one order-9 bond. -/
theorem sdf_dative_fault_tolerance_witness :
    loadSDF initRegistry none none wRec9 = .error (.badBondOrder ⟨1, 2, 9⟩)
    ∧ loadSDF initRegistry (some false) none wRec9 = .error (.badBondOrder ⟨1, 2, 9⟩)
    ∧ loadSDF initRegistry none (some "DEFAULT") wRec9 = .error (.badBondOrder ⟨1, 2, 9⟩)
    ∧ (∃ d, loadSDF initRegistry (some true) none wRec9
        = .ok (⟨[⟨"N", 0⟩, ⟨"C", 0⟩], wRec9.bonds⟩, d)
        ∧ dativeDiag ⟨1, 2, 9⟩ ∈ d ∧ (dativeDiag ⟨1, 2, 9⟩).severity = .error)
    ∧ (∃ d, loadSDF initRegistry none (some "SLOPPY") wRec9
        = .ok (⟨[⟨"N", 0⟩, ⟨"C", 0⟩], wRec9.bonds⟩, d)
        ∧ dativeDiag ⟨1, 2, 9⟩ ∈ d ∧ (dativeDiag ⟨1, 2, 9⟩).severity = .error)
    ∧ (∃ d, loadSDF (setProfile initRegistry "DEFAULT" ⟨true⟩) none none wRec9
        = .ok (⟨[⟨"N", 0⟩, ⟨"C", 0⟩], wRec9.bonds⟩, d)
        ∧ dativeDiag ⟨1, 2, 9⟩ ∈ d ∧ (dativeDiag ⟨1, 2, 9⟩).severity = .error)
    ∧ loadSDF (setProfile (setProfile initRegistry "DEFAULT" ⟨true⟩) "DEFAULT" ⟨false⟩)
        none none wRec9 = .error (.badBondOrder ⟨1, 2, 9⟩) :=
  sdf_dative_fault_tolerance wRec9 [⟨"N", 0⟩, ⟨"C", 0⟩] [] [] ⟨1, 2, 9⟩ rfl rfl
    (by decide) (by decide) rfl

/-- C6 witness: the lossy-downgrade theorem applied to a concrete
molecule with one dative and one single bond. -/
theorem sdf_dative_write_downgrade_witness :
    ∃ rec ws, writeV2000 wMol9 = .ok (rec, ws)
      ∧ rec.bonds = wMol9.bonds.map downgradeDative
      ∧ downgradeDative ⟨1, 2, 9⟩ = ({ first := 1, second := 2, order := 1 } : SdfBond)
      ∧ ({ first := 1, second := 2, order := 1 } : SdfBond) ∈ rec.bonds
      ∧ lossyDativeDiag ⟨1, 2, 9⟩ ∈ ws
      ∧ (lossyDativeDiag ⟨1, 2, 9⟩).severity = .warning
      ∧ readV2000 false rec = .ok (⟨wMol9.atoms, wMol9.bonds.map downgradeDative⟩, [])
      ∧ writeV3000 wMol9 = .ok ⟨wMol9.atoms, wMol9.bonds⟩
      ∧ readV3000 ⟨wMol9.atoms, wMol9.bonds⟩ = .ok (⟨wMol9.atoms, wMol9.bonds⟩, []) :=
  sdf_dative_write_downgrade wMol9 [] [⟨1, 2, 1⟩] ⟨1, 2, 9⟩ rfl rfl (by decide) (by decide)

end Witness

namespace ScoringBase

/-- Popping immediately after pushing restores the logging state. -/
theorem pop_push (l : Int) (s : LogState) :
    popVerbosityLevel (pushVerbosityLevel l s) = s := rfl

/-- When the load succeeds, `MMCIFPrep` runs the body with the verbosity
state restored. -/
theorem MMCIFPrep_load_ok (process : MolEntity → MolEntity)
    (createBU : String → MolEntity → MolEntity) (lib : String → Bool)
    (load : Bool → Except String LoadData) (ld : LoadData) (biounit : Option String)
    (enp ft esm : Bool) (log : LogState) (h : load ft = .ok ld) :
    MMCIFPrep process createBU (some lib) load biounit enp ft esm log
      = (MMCIFPrepBody process createBU lib ld biounit enp ft esm, log) := by
  simp only [MMCIFPrep]
  rw [h]
  rfl

/-- When the load raises, `MMCIFPrep` propagates the error with the
verbosity state still pushed (the pop is skipped). -/
theorem MMCIFPrep_load_error (process : MolEntity → MolEntity)
    (createBU : String → MolEntity → MolEntity) (lib : String → Bool)
    (load : Bool → Except String LoadData) (msg : String) (biounit : Option String)
    (enp ft esm : Bool) (log : LogState) (h : load ft = .error msg) :
    MMCIFPrep process createBU (some lib) load biounit enp ft esm log
      = (.error (.loadError msg), pushVerbosityLevel errorLogLevel log) := by
  simp only [MMCIFPrep]
  rw [h]

/-- A chain of the input is represented in the composition-based polymer
selection exactly when it has at least one peptide-or-nucleotide
residue, and its representative carries exactly those residues. -/
theorem polyByComposition_mem (ent : MolEntity) (ch : Chain) (hch : ch ∈ ent.chains) :
    ch.residues.filter isPolyResidue ≠ [] ↔
      ∃ ch2, ch2 ∈ (polyByComposition ent).chains ∧ ch2.name = ch.name
        ∧ ch2.residues = ch.residues.filter isPolyResidue := by
  constructor
  · intro hne
    refine ⟨{ ch with residues := ch.residues.filter isPolyResidue }, ?_, rfl, rfl⟩
    apply List.mem_filterMap.mpr
    refine ⟨ch, hch, ?_⟩
    unfold polyCompChain
    rw [if_neg hne]
  · rintro ⟨ch2, h2, _, hres⟩
    obtain ⟨a, _, hfa⟩ := List.mem_filterMap.mp h2
    unfold polyCompChain at hfa
    by_cases he : a.residues.filter isPolyResidue = []
    · rw [if_pos he] at hfa
      exact absurd hfa (by simp)
    · rw [if_neg he] at hfa
      have ha2 : ch2.residues = a.residues.filter isPolyResidue := by
        cases hfa
        rfl
      intro h0
      apply he
      rw [← ha2, hres]
      exact h0

end ScoringBase

namespace Claims

open ScoringBase Fixtures

/-- C1 counterexample: a load that raises leaves the severity threshold
at the pushed Error level — the state after the call differs from the
state before it. -/
theorem prep_verbosity_not_restored_counterexample :
    (MMCIFPrep id (fun _ e => e) (some (fun _ => true))
        (fun _ => .error "parse failure") none false false false ⟨3, []⟩).2
      ≠ (⟨3, []⟩ : LogState) := by
  decide

/-- C1 (amended).  The severity threshold pushed before a
crystallographic load (`MMCIFPrep` and `PDBPrep`) is restored on every
path on which the load itself returns — including later pipeline
errors — but when the load raises, the threshold is left at the pushed
Error level: the Push/Pop pair is manual, not scoped. -/
theorem prep_verbosity_restoration (process : MolEntity → MolEntity)
    (createBU : String → MolEntity → MolEntity) (lib : String → Bool)
    (loadM : Bool → Except String LoadData) (loadP : Bool → Except String MolEntity)
    (biounit : Option String) (enp ft esm : Bool) (log : LogState) :
    ((∀ ld, loadM ft = .ok ld →
        (MMCIFPrep process createBU (some lib) loadM biounit enp ft esm log).2 = log)
      ∧ (∀ msg, loadM ft = .error msg →
        (MMCIFPrep process createBU (some lib) loadM biounit enp ft esm log).2
          = pushVerbosityLevel errorLogLevel log))
    ∧ ((∀ ent, loadP ft = .ok ent →
        (PDBPrep process (some lib) loadP ft log).2 = log)
      ∧ (∀ msg, loadP ft = .error msg →
        (PDBPrep process (some lib) loadP ft log).2
          = pushVerbosityLevel errorLogLevel log)) := by
  refine ⟨⟨?_, ?_⟩, ?_, ?_⟩
  · intro ld h
    rw [MMCIFPrep_load_ok process createBU lib loadM ld biounit enp ft esm log h]
  · intro msg h
    rw [MMCIFPrep_load_error process createBU lib loadM msg biounit enp ft esm log h]
  · intro ent h
    simp only [PDBPrep]
    rw [h]
    rfl
  · intro msg h
    simp only [PDBPrep]
    rw [h]

end Claims

namespace Witness

open ScoringBase Fixtures Claims

/-- C1 witness: a successful `MMCIFPrep` load restores the logging
state; a failing `PDBPrep` load leaves it pushed. -/
theorem prep_verbosity_restoration_witness :
    (MMCIFPrep id (fun _ e => e) (some (fun _ => true)) (fun _ => .ok wLdEmpty)
        none false false false ⟨3, [5]⟩).2 = (⟨3, [5]⟩ : LogState)
    ∧ (PDBPrep id (some (fun _ => true)) (fun _ => .error "boom") false ⟨3, [5]⟩).2
        = pushVerbosityLevel errorLogLevel ⟨3, [5]⟩ :=
  ⟨(prep_verbosity_restoration id (fun _ e => e) (fun _ => true) (fun _ => .ok wLdEmpty)
      (fun _ => .error "boom") none false false false ⟨3, [5]⟩).1.1 wLdEmpty rfl,
    (prep_verbosity_restoration id (fun _ e => e) (fun _ => true) (fun _ => .ok wLdEmpty)
      (fun _ => .error "boom") none false false false ⟨3, [5]⟩).2.2 "boom" rfl⟩

end Witness

namespace Claims

open ScoringBase Fixtures

/-- C7.  When at least one chain lacks resolvable entity-type metadata,
strict `MMCIFPrep` fails with an error listing every such chain, while
fault-tolerant `MMCIFPrep` succeeds with a warning and a polymer entity
built by the peptide-or-nucleotide residue-composition test alone — a
chain is kept exactly when it has such a residue — ignoring the
entity-type metadata. -/
theorem mmcif_entity_type_fallback (process : MolEntity → MolEntity)
    (createBU : String → MolEntity → MolEntity) (lib : String → Bool)
    (load : Bool → Except String LoadData) (ld : LoadData) (biounit : Option String)
    (ent : MolEntity) (log : LogState)
    (hldF : load false = .ok ld) (hldT : load true = .ok ld)
    (hent : prepEnt process createBU ld biounit = .ok ent)
    (hmiss : missingEntityTypes ld.info biounit ent ≠ []) :
    (MMCIFPrep process createBU (some lib) load biounit false false false log).1
      = .error (.missingEntityType (missingEntityTypes ld.info biounit ent))
    ∧ (MMCIFPrep process createBU (some lib) load biounit false true false log).1
      = .ok ⟨polyByComposition ent, none, none, none,
          [.missingEntityType (missingEntityTypes ld.info biounit ent)]⟩
    ∧ ∀ ch ∈ ent.chains,
        (ch.residues.filter isPolyResidue ≠ [] ↔
          ∃ ch2, ch2 ∈ (polyByComposition ent).chains ∧ ch2.name = ch.name
            ∧ ch2.residues = ch.residues.filter isPolyResidue) := by
  have hclsF : classifyPolymers ld.info biounit false ent
      = .error (.missingEntityType (missingEntityTypes ld.info biounit ent)) := by
    unfold classifyPolymers
    rw [if_neg hmiss]
    rfl
  have hclsT : classifyPolymers ld.info biounit true ent
      = .ok (polyByComposition ent,
          [.missingEntityType (missingEntityTypes ld.info biounit ent)]) := by
    unfold classifyPolymers
    rw [if_neg hmiss]
    rfl
  refine ⟨?_, ?_, fun ch hch => polyByComposition_mem ent ch hch⟩
  · rw [MMCIFPrep_load_ok process createBU lib load ld biounit false false false log hldF]
    show MMCIFPrepBody process createBU lib ld biounit false false false = _
    simp only [MMCIFPrepBody, hent, hclsF]
  · rw [MMCIFPrep_load_ok process createBU lib load ld biounit false true false log hldT]
    show MMCIFPrepBody process createBU lib ld biounit false true false = _
    simp only [MMCIFPrepBody, hent, hclsT]
    rfl

end Claims

namespace Witness

open ScoringBase Fixtures Claims

/-- C7 witness: the classification theorem applied to a load whose only
chain A has no resolvable entity-type metadata. -/
theorem mmcif_entity_type_fallback_witness :
    (MMCIFPrep id (fun _ e => e) (some (fun _ => true)) (fun _ => .ok wLdMissing)
        none false false false ⟨3, []⟩).1
      = .error (.missingEntityType
          (missingEntityTypes wLdMissing.info none ⟨[⟨"A", [wResAla]⟩]⟩))
    ∧ (MMCIFPrep id (fun _ e => e) (some (fun _ => true)) (fun _ => .ok wLdMissing)
        none false true false ⟨3, []⟩).1
      = .ok ⟨polyByComposition ⟨[⟨"A", [wResAla]⟩]⟩, none, none, none,
          [.missingEntityType (missingEntityTypes wLdMissing.info none ⟨[⟨"A", [wResAla]⟩]⟩)]⟩
    ∧ ∀ ch ∈ (⟨[⟨"A", [wResAla]⟩]⟩ : MolEntity).chains,
        (ch.residues.filter isPolyResidue ≠ [] ↔
          ∃ ch2, ch2 ∈ (polyByComposition ⟨[⟨"A", [wResAla]⟩]⟩).chains
            ∧ ch2.name = ch.name
            ∧ ch2.residues = ch.residues.filter isPolyResidue) :=
  mmcif_entity_type_fallback id (fun _ e => e) (fun _ => true) (fun _ => .ok wLdMissing)
    wLdMissing none ⟨[⟨"A", [wResAla]⟩]⟩ ⟨3, []⟩ rfl rfl rfl (by decide)

end Witness

namespace ScoringBase

/-- The non-polymer loop fails at the first chain whose residue count is
not exactly 1, naming that chain and its count, regardless of the
fault-tolerant flag, provided the earlier chains pass both checks. -/
theorem nonPolyLoop_count_error (lib : String → Bool) (ft : Bool)
    (pre : List Chain) (b : Chain) (post : List Chain)
    (hpre : ∀ c ∈ pre, c.residues.length = 1 ∧ lib (headResName c.residues) = true)
    (hb : b.residues.length ≠ 1) :
    nonPolyLoop lib ft (pre ++ b :: post)
      = .error (.nonpolyResidueCount b.name b.residues.length) := by
  induction pre with
  | nil =>
    rw [List.nil_append]
    simp only [nonPolyLoop]
    rw [if_pos hb]
  | cons c rest ih =>
    obtain ⟨h1, h2⟩ := hpre c (List.mem_cons_self c rest)
    have hrest := ih (fun y hy => hpre y (List.mem_cons_of_mem c hy))
    rw [List.cons_append]
    simp only [nonPolyLoop]
    rw [if_neg (by omega), h2, hrest]
    rfl

end ScoringBase

namespace Claims

open ScoringBase Fixtures

/-- C8.  Non-polymer extraction has no fault-tolerant fallback for its
structural checks: with incomplete entity-type metadata `MMCIFPrep`
with `extract_nonpoly` fails in strict and fault-tolerant mode alike,
and a non-polymer chain (the first in order, with well-behaved earlier
chains) whose residue count differs from 1 makes it fail in both modes
with an error naming that chain and its count. -/
theorem mmcif_nonpoly_strict (process : MolEntity → MolEntity)
    (createBU : String → MolEntity → MolEntity) (lib : String → Bool)
    (load : Bool → Except String LoadData) (ld : LoadData) (biounit : Option String)
    (esm : Bool) (log : LogState) (ent : MolEntity)
    (hld : ∀ ft, load ft = .ok ld)
    (hent : prepEnt process createBU ld biounit = .ok ent) :
    (missingEntityTypes ld.info biounit ent ≠ [] →
      (MMCIFPrep process createBU (some lib) load biounit true false esm log).1
        = .error (.missingEntityType (missingEntityTypes ld.info biounit ent))
      ∧ (MMCIFPrep process createBU (some lib) load biounit true true esm log).1
        = .error (.nonpolyMissingEntityType (missingEntityTypes ld.info biounit ent)))
    ∧ (∀ pre b post, missingEntityTypes ld.info biounit ent = [] →
        nonPolyChains ld.info biounit ent = pre ++ b :: post →
        (∀ c ∈ pre, c.residues.length = 1 ∧ lib (headResName c.residues) = true) →
        b.residues.length ≠ 1 →
        ∀ ft, (MMCIFPrep process createBU (some lib) load biounit true ft esm log).1
          = .error (.nonpolyResidueCount b.name b.residues.length)) := by
  constructor
  · intro hmiss
    constructor
    · have hclsF : classifyPolymers ld.info biounit false ent
          = .error (.missingEntityType (missingEntityTypes ld.info biounit ent)) := by
        unfold classifyPolymers
        rw [if_neg hmiss]
        rfl
      rw [MMCIFPrep_load_ok process createBU lib load ld biounit true false esm log
        (hld false)]
      show MMCIFPrepBody process createBU lib ld biounit true false esm = _
      simp only [MMCIFPrepBody, hent, hclsF]
    · have hclsT : classifyPolymers ld.info biounit true ent
          = .ok (polyByComposition ent,
              [.missingEntityType (missingEntityTypes ld.info biounit ent)]) := by
        unfold classifyPolymers
        rw [if_neg hmiss]
        rfl
      have hstage : extractNonPolyStage lib ld.info biounit true
          (missingEntityTypes ld.info biounit ent) ent
          = .error (.nonpolyMissingEntityType (missingEntityTypes ld.info biounit ent)) := by
        unfold extractNonPolyStage
        rw [if_neg hmiss]
      rw [MMCIFPrep_load_ok process createBU lib load ld biounit true true esm log
        (hld true)]
      show MMCIFPrepBody process createBU lib ld biounit true true esm = _
      simp only [MMCIFPrepBody, hent, hclsT, hstage]
      rfl
  · intro pre b post hmiss0 hsplit hpre hb ft
    have hcls : classifyPolymers ld.info biounit ft ent
        = .ok (polyByEntityIds ld.info biounit ent, []) := by
      unfold classifyPolymers
      rw [if_pos hmiss0]
    have hstage : extractNonPolyStage lib ld.info biounit ft
        (missingEntityTypes ld.info biounit ent) ent
        = .error (.nonpolyResidueCount b.name b.residues.length) := by
      unfold extractNonPolyStage
      rw [if_pos hmiss0, hsplit, nonPolyLoop_count_error lib ft pre b post hpre hb]
    rw [MMCIFPrep_load_ok process createBU lib load ld biounit true ft esm log (hld ft)]
    show MMCIFPrepBody process createBU lib ld biounit true ft esm = _
    simp only [MMCIFPrepBody, hent, hcls, hstage]
    rfl

end Claims

namespace Witness

open ScoringBase Fixtures Claims

/-- C8 witness: both parts of the non-polymer strictness theorem, each
at a concrete input — incomplete metadata for chain A, and a
two-residue non-polymer chain L. -/
theorem mmcif_nonpoly_strict_witness :
    ((MMCIFPrep id (fun _ e => e) (some (fun _ => true)) (fun _ => .ok wLdMissing)
        none true false false ⟨3, []⟩).1
      = .error (.missingEntityType
          (missingEntityTypes wLdMissing.info none ⟨[⟨"A", [wResAla]⟩]⟩))
    ∧ (MMCIFPrep id (fun _ e => e) (some (fun _ => true)) (fun _ => .ok wLdMissing)
        none true true false ⟨3, []⟩).1
      = .error (.nonpolyMissingEntityType
          (missingEntityTypes wLdMissing.info none ⟨[⟨"A", [wResAla]⟩]⟩)))
    ∧ (MMCIFPrep id (fun _ e => e) (some (fun _ => true)) (fun _ => .ok wLdNonPoly2)
        none true false false ⟨3, []⟩).1
      = .error (.nonpolyResidueCount "L" 2)
    ∧ (MMCIFPrep id (fun _ e => e) (some (fun _ => true)) (fun _ => .ok wLdNonPoly2)
        none true true false ⟨3, []⟩).1
      = .error (.nonpolyResidueCount "L" 2) :=
  ⟨(mmcif_nonpoly_strict id (fun _ e => e) (fun _ => true) (fun _ => .ok wLdMissing)
      wLdMissing none false ⟨3, []⟩ ⟨[⟨"A", [wResAla]⟩]⟩ (fun _ => rfl) rfl).1
      (by decide),
    (mmcif_nonpoly_strict id (fun _ e => e) (fun _ => true) (fun _ => .ok wLdNonPoly2)
      wLdNonPoly2 none false ⟨3, []⟩ ⟨[⟨"A", [wResAla]⟩, ⟨"L", [wResLig, wResLig]⟩]⟩
      (fun _ => rfl) rfl).2 [] ⟨"L", [wResLig, wResLig]⟩ [] (by decide) rfl (by decide)
      (by decide) false,
    (mmcif_nonpoly_strict id (fun _ e => e) (fun _ => true) (fun _ => .ok wLdNonPoly2)
      wLdNonPoly2 none false ⟨3, []⟩ ⟨[⟨"A", [wResAla]⟩, ⟨"L", [wResLig, wResLig]⟩]⟩
      (fun _ => rfl) rfl).2 [] ⟨"L", [wResLig, wResLig]⟩ [] (by decide) rfl (by decide)
      (by decide) true⟩

end Witness

namespace Claims

open ScoringBase Fixtures

/-- C9.  With complete entity-type metadata, if some polymer chain's
entity id is missing from the deduplicated per-entity sequence set, then
`MMCIFPrep` with `extract_seqres_mapping` fails in strict mode with an
error listing the uncovered chains, and in fault-tolerant mode succeeds
with a warning and with both the sequence list and the chain-to-entity
map absent (`none`), never partially populated. -/
theorem mmcif_seqres_gating (process : MolEntity → MolEntity)
    (createBU : String → MolEntity → MolEntity) (lib : String → Bool)
    (load : Bool → Except String LoadData) (ld : LoadData) (biounit : Option String)
    (log : LogState) (ent : MolEntity)
    (hld : ∀ ft, load ft = .ok ld)
    (hent : prepEnt process createBU ld biounit = .ok ent)
    (hmiss0 : missingEntityTypes ld.info biounit ent = [])
    (hseq : missingSeqresChains ld.info biounit ld.seqres
      (polyByEntityIds ld.info biounit ent) ≠ []) :
    (MMCIFPrep process createBU (some lib) load biounit false false true log).1
      = .error (.missingSeqres (missingSeqresChains ld.info biounit ld.seqres
          (polyByEntityIds ld.info biounit ent)))
    ∧ (MMCIFPrep process createBU (some lib) load biounit false true true log).1
      = .ok ⟨polyByEntityIds ld.info biounit ent, none, none, none,
          [.missingSeqres (missingSeqresChains ld.info biounit ld.seqres
            (polyByEntityIds ld.info biounit ent))]⟩ := by
  have hcls : ∀ ft, classifyPolymers ld.info biounit ft ent
      = .ok (polyByEntityIds ld.info biounit ent, []) := by
    intro ft
    unfold classifyPolymers
    rw [if_pos hmiss0]
  have hstF : seqresMappingStage ld.info biounit false ld.seqres
      (polyByEntityIds ld.info biounit ent)
      = .error (.missingSeqres (missingSeqresChains ld.info biounit ld.seqres
          (polyByEntityIds ld.info biounit ent))) := by
    unfold seqresMappingStage
    rw [if_neg hseq]
    rfl
  have hstT : seqresMappingStage ld.info biounit true ld.seqres
      (polyByEntityIds ld.info biounit ent)
      = .ok (none, none, [.missingSeqres (missingSeqresChains ld.info biounit ld.seqres
          (polyByEntityIds ld.info biounit ent))]) := by
    unfold seqresMappingStage
    rw [if_neg hseq]
    rfl
  constructor
  · rw [MMCIFPrep_load_ok process createBU lib load ld biounit false false true log
      (hld false)]
    show MMCIFPrepBody process createBU lib ld biounit false false true = _
    simp only [MMCIFPrepBody, hent, hcls false, hstF]
    rfl
  · rw [MMCIFPrep_load_ok process createBU lib load ld biounit false true true log
      (hld true)]
    show MMCIFPrepBody process createBU lib ld biounit false true true = _
    simp only [MMCIFPrepBody, hent, hcls true, hstT]
    rfl

end Claims

namespace Witness

open ScoringBase Fixtures Claims

/-- C9 witness: the seqres-gating theorem applied to polymer chain A
with no seqres records at all. -/
theorem mmcif_seqres_gating_witness :
    (MMCIFPrep id (fun _ e => e) (some (fun _ => true)) (fun _ => .ok wLdNoSeqres)
        none false false true ⟨3, []⟩).1
      = .error (.missingSeqres (missingSeqresChains wLdNoSeqres.info none
          wLdNoSeqres.seqres (polyByEntityIds wLdNoSeqres.info none ⟨[⟨"A", [wResAla]⟩]⟩)))
    ∧ (MMCIFPrep id (fun _ e => e) (some (fun _ => true)) (fun _ => .ok wLdNoSeqres)
        none false true true ⟨3, []⟩).1
      = .ok ⟨polyByEntityIds wLdNoSeqres.info none ⟨[⟨"A", [wResAla]⟩]⟩, none, none, none,
          [.missingSeqres (missingSeqresChains wLdNoSeqres.info none wLdNoSeqres.seqres
            (polyByEntityIds wLdNoSeqres.info none ⟨[⟨"A", [wResAla]⟩]⟩))]⟩ :=
  mmcif_seqres_gating id (fun _ e => e) (fun _ => true) (fun _ => .ok wLdNoSeqres)
    wLdNoSeqres none ⟨3, []⟩ ⟨[⟨"A", [wResAla]⟩]⟩ (fun _ => rfl) rfl (by decide) (by decide)

end Witness

namespace ScoringBase

/-- A character list without a dot has no first-dot split. -/
theorem afterFirstDot_none (l : List Char) (h : ('.' ∈ l) → False) :
    afterFirstDot l = none := by
  induction l with
  | nil => rfl
  | cons c rest ih =>
    have hc : ¬ c = '.' := fun hc => h (by rw [hc]; exact List.mem_cons_self '.' rest)
    simp only [afterFirstDot]
    rw [if_neg hc, ih (fun hm => h (List.mem_cons_of_mem c hm))]

end ScoringBase

namespace Claims

open ScoringBase Fixtures

/-- C10.  The find-based first-dot strip used by entity classification,
non-polymer extraction and the seqres coverage check falls back to the
whole chain name when it contains no dot, while the index-based strip
used by the final chain-to-entity mapping step raises; consequently, on
a concrete input whose biounit expansion yields the dot-free polymer
chain `X`, `MMCIFPrep` with a biounit and `extract_seqres_mapping`
raises the no-dot error although the same input passes every other
stage (the run without seqres mapping succeeds). -/
theorem mmcif_dot_split_divergence :
    (∀ s : String, (('.' ∈ s.data) → False) →
      afterFirstDotFind s = s ∧ ∃ e, afterFirstDotIndex s = .error e)
    ∧ (MMCIFPrep id (fun _ e => e) (some (fun _ => true)) (fun _ => .ok wLdDot)
        (some "bu1") false false true ⟨3, []⟩).1
      = .error (.noDotInChainName "X")
    ∧ (∃ r, (MMCIFPrep id (fun _ e => e) (some (fun _ => true)) (fun _ => .ok wLdDot)
        (some "bu1") false false false ⟨3, []⟩).1 = .ok r) := by
  refine ⟨?_, by rfl, ⟨_, rfl⟩⟩
  intro s h
  constructor
  · unfold afterFirstDotFind
    rw [afterFirstDot_none s.data h]
  · refine ⟨.noDotInChainName s, ?_⟩
    unfold afterFirstDotIndex
    rw [afterFirstDot_none s.data h]

end Claims

namespace Witness

open ScoringBase Fixtures Claims

/-- C10 witness: the divergence theorem's universally quantified part
applied to the dot-free chain name `X`. -/
theorem mmcif_dot_split_divergence_witness :
    afterFirstDotFind "X" = "X" ∧ ∃ e, afterFirstDotIndex "X" = .error e :=
  mmcif_dot_split_divergence.1 "X" (by decide)

end Witness
